import Mathlib

/-!
Verification of the perron resilient HTTP client library.

Shallow embedding of the core subsystems:
* rolling-window circuit breaker (src/lib/circuit-breaker.ts)
* retry schedule generator (src/lib/retry.ts)
* filter pipeline and request orchestration (client.ts)
* error message construction and JSON response decoding (client.ts)

JS numbers are modelled as rationals, counters as naturals, and the
asynchronous timers of the breaker as explicit events on a state record.
-/

namespace Perron

namespace Breaker

/-- One slot of the breaker's rolling window ring. -/
structure Bucket where
  failures : Nat
  successes : Nat
  timeouts : Nat
  shortCircuits : Nat
deriving Repr, DecidableEq

def emptyBucket : Bucket := ⟨0, 0, 0, 0⟩

/-- Mirrors clearBucket: resets every counter of a recycled bucket. -/
def clearBucket (_b : Bucket) : Bucket := emptyBucket

/-- The breaker's state enum. -/
inductive BState where
  | OPEN
  | HALF_OPEN
  | CLOSED
deriving Repr, DecidableEq

/-- Metrics as computed by calculateMetrics. -/
structure Metrics where
  totalCount : Nat
  errorCount : Nat
  errorPercentage : ℚ
deriving Repr, DecidableEq

/-- Per-bucket error contribution: failures + timeouts. -/
def bucketErrors (b : Bucket) : Nat := b.failures + b.timeouts

/-- Mirrors CircuitBreaker.calculateMetrics: the loop accumulates
errorCount += failures + timeouts and totalCount += errors + successes,
then errorPercentage = errorCount / (totalCount > 0 ? totalCount : 1) * 100. -/
def calculateMetrics (buckets : List Bucket) : Metrics :=
  { totalCount := (buckets.map (fun b => bucketErrors b + b.successes)).sum
    errorCount := (buckets.map bucketErrors).sum
    errorPercentage :=
      (((buckets.map bucketErrors).sum : ℚ)
          / (if 0 < (buckets.map (fun b => bucketErrors b + b.successes)).sum
             then ((buckets.map (fun b => bucketErrors b + b.successes)).sum : ℚ)
             else 1)) * 100 }

/-- The CircuitBreaker instance state: configuration thresholds, the bucket
ring with its index, the state enum, the forced snapshot, and a flag that
models the pending OPEN to HALF_OPEN setTimeout. -/
structure CircuitBreaker where
  errorThreshold : ℚ
  volumeThreshold : ℚ
  buckets : List Bucket
  bucketIndex : Nat
  state : BState
  forced : Option BState
  halfOpenTimer : Bool
deriving Repr, DecidableEq

/-- Mirrors lastBucket: the bucket at the current index. -/
def lastBucket (cb : CircuitBreaker) : Bucket :=
  cb.buckets.getD cb.bucketIndex emptyBucket

/-- In-place mutation of the current bucket, as the source does through the
reference returned by lastBucket. -/
def modifyLastBucket (cb : CircuitBreaker) (f : Bucket → Bucket) : CircuitBreaker :=
  { cb with buckets := cb.buckets.set cb.bucketIndex (f (lastBucket cb)) }

/-- Callback firings produced by a state update: the metrics passed to
onCircuitOpen respectively onCircuitClose, when fired. -/
structure Events where
  openFired : Option Metrics
  closeFired : Option Metrics
deriving Repr, DecidableEq

def noEvents : Events := ⟨none, none⟩

/-- Mirrors CircuitBreaker.updateState. In HALF_OPEN the last command failed
iff the current bucket has no successes and errorCount > 0; otherwise the
breaker closes and fires onCircuitClose. Outside HALF_OPEN the breaker trips
to OPEN, arms the wait timer and fires onCircuitOpen exactly when the volume
and error thresholds are both strictly exceeded. -/
def updateState (cb : CircuitBreaker) : CircuitBreaker × Events :=
  if cb.state = BState.HALF_OPEN then
    if (lastBucket cb).successes = 0 ∧ 0 < (calculateMetrics cb.buckets).errorCount then
      ({ cb with state := BState.OPEN }, noEvents)
    else
      ({ cb with state := BState.CLOSED },
        { openFired := none, closeFired := some (calculateMetrics cb.buckets) })
  else
    if ((calculateMetrics cb.buckets).totalCount : ℚ) > cb.volumeThreshold
        ∧ (calculateMetrics cb.buckets).errorPercentage > cb.errorThreshold then
      ({ cb with state := BState.OPEN, halfOpenTimer := true },
        { openFired := some (calculateMetrics cb.buckets), closeFired := none })
    else (cb, noEvents)

/-- The terminal signal charged for one command enrolment. -/
inductive Sig where
  | success
  | failure
  | timedOut
deriving Repr, DecidableEq

/-- The counter a signal bumps in a bucket: increment("successes"),
increment("failures") or increment("timeouts"). -/
def bumpSig (s : Sig) (b : Bucket) : Bucket :=
  match s with
  | .success => { b with successes := b.successes + 1 }
  | .failure => { b with failures := b.failures + 1 }
  | .timedOut => { b with timeouts := b.timeouts + 1 }

/-- Mirrors isOpen: true iff the current state is OPEN. -/
def isOpen (cb : CircuitBreaker) : Bool := cb.state = BState.OPEN

/-- Mirrors CircuitBreaker.run: when the breaker is open the fallback path
runs and the current bucket's shortCircuits is incremented; otherwise the
command is executed.  The boolean records whether the command ran. -/
def run (cb : CircuitBreaker) : CircuitBreaker × Bool :=
  if isOpen cb then
    (modifyLastBucket cb (fun b => { b with shortCircuits := b.shortCircuits + 1 }), false)
  else (cb, true)

/-- Asynchronous events acting on the breaker:
* signal s - a command enrolment's first terminal signal (the increment
  closure: bump the counter, then updateState unless forced);
* tick - the bucket-rotation ticker (advance index modulo ring size, clear
  the now-current bucket);
* waitTimerFire - the pending OPEN to HALF_OPEN setTimeout firing;
* dispatch - a run() call (shortCircuits++ when open, else no state change
  at dispatch time). -/
inductive Ev where
  | signal (s : Sig)
  | tick
  | waitTimerFire
  | dispatch
deriving Repr, DecidableEq

/-- One event step of the breaker. -/
def applyEv (cb : CircuitBreaker) (e : Ev) : CircuitBreaker × Events :=
  match e with
  | .signal s =>
      let cb1 := modifyLastBucket cb (bumpSig s)
      if cb1.forced = none then updateState cb1 else (cb1, noEvents)
  | .tick =>
      let i := cb.bucketIndex + 1
      let i := if cb.buckets.length ≤ i then 0 else i
      (modifyLastBucket { cb with bucketIndex := i } clearBucket, noEvents)
  | .waitTimerFire =>
      if cb.halfOpenTimer then
        (modifyLastBucket
          { cb with state := BState.HALF_OPEN, halfOpenTimer := false } clearBucket,
          noEvents)
      else (cb, noEvents)
  | .dispatch => ((run cb).1, noEvents)

/-- Folding a list of events over the breaker. -/
def applyEvs (cb : CircuitBreaker) (evs : List Ev) : CircuitBreaker :=
  evs.foldl (fun c e => (applyEv c e).1) cb

/-- Mirrors forceClose: snapshot the current state into forced, go CLOSED. -/
def forceClose (cb : CircuitBreaker) : CircuitBreaker :=
  { cb with forced := some cb.state, state := BState.CLOSED }

/-- Mirrors forceOpen: snapshot the current state into forced, go OPEN. -/
def forceOpen (cb : CircuitBreaker) : CircuitBreaker :=
  { cb with forced := some cb.state, state := BState.OPEN }

/-- Mirrors unforce: restore the snapshot when one is present. -/
def unforce (cb : CircuitBreaker) : CircuitBreaker :=
  match cb.forced with
  | some s => { cb with state := s, forced := none }
  | none => cb

/-- The guarded increment closure of executeCommand, at the counter level:
the pair carries the bucket and whether the timeout handle is still set.
A signal arriving when the handle is gone is ignored. -/
def applySignalGuarded (st : Bucket × Bool) (s : Sig) : Bucket × Bool :=
  if st.2 then (bumpSig s st.1, false) else st

/-- Sum of the three outcome counters of a bucket. -/
def outcomeSum (b : Bucket) : Nat := b.successes + b.failures + b.timeouts

end Breaker

namespace Retry

/-- The options consumed by the schedule generator. -/
structure OperationOptions where
  retries : Nat
  factor : ℚ
  minTimeout : ℚ
  maxTimeout : ℚ
  randomize : Bool
deriving Repr, DecidableEq

/-- JS Math.round on rationals: floor(q + 1/2). -/
def jsRound (q : ℚ) : ℚ := ((⌊q + 1 / 2⌋ : ℤ) : ℚ)

/-- Mirrors createTimeout: random is Math.random() + 1 when randomize, else 1;
timeout = round(random * minTimeout * factor ^ attempt) capped at maxTimeout.
The rnd argument stands for the Math.random() draw, which lies in [0, 1). -/
def createTimeout (attempt : Nat) (opts : OperationOptions) (rnd : ℚ) : ℚ :=
  min
    (jsRound ((if opts.randomize then rnd + 1 else 1)
      * opts.minTimeout * opts.factor ^ attempt))
    opts.maxTimeout

/-- The delays in attempt-index order, before sorting. -/
def unsortedDelays (opts : OperationOptions) (rand : Nat → ℚ) : List ℚ :=
  (List.range opts.retries).map (fun i => createTimeout i opts (rand i))

/-- Mirrors timeouts: throws when minTimeout > maxTimeout, otherwise builds
one delay per attempt index and sorts the array numerically ascending. -/
def timeouts (opts : OperationOptions) (rand : Nat → ℚ) : Except String (List ℚ) :=
  if opts.minTimeout > opts.maxTimeout then
    Except.error "minTimeout is greater than maxTimeout"
  else
    Except.ok (List.insertionSort (· ≤ ·) (unsortedDelays opts rand))

end Retry

namespace Pipeline

/-- A ServiceClientRequestFilter: an optional request transform, which may
return transformed request options (inl) or short-circuit with a Response
(inr), and an optional response transform.  π is the type of request
options, ρ the type of responses. -/
structure Filter (π ρ : Type) where
  requestF : Option (π → π ⊕ ρ)
  responseF : Option (ρ → ρ)

/-- The request side of a filter: the identity on options when the filter
has no request transform. -/
def applyReq {π ρ : Type} (f : Filter π ρ) (p : π) : π ⊕ ρ :=
  match f.requestF with
  | some g => g p
  | none => Sum.inl p

/-- The response side of a filter: the identity when absent. -/
def applyResp {π ρ : Type} (f : Filter π ρ) (r : ρ) : ρ :=
  match f.responseF with
  | some g => g r
  | none => r

/-- One step of the request-filter reduce in requestWithFilters: once the
accumulator is a Response it is passed through untouched and the filter is
not recorded; otherwise the filter's request side runs and the filter is
unshifted onto the pending response filters. -/
def reqStep {π ρ : Type} (acc : (π ⊕ ρ) × List (Filter π ρ)) (f : Filter π ρ) :
    (π ⊕ ρ) × List (Filter π ρ) :=
  match acc.1 with
  | Sum.inr resp => (Sum.inr resp, acc.2)
  | Sum.inl p => (applyReq f p, f :: acc.2)

/-- The request-filter phase: fold the filters over the initial request
options, collecting pendingResponseFilters in reverse order of execution. -/
def runRequestFilters {π ρ : Type} (filters : List (Filter π ρ)) (p : π) :
    (π ⊕ ρ) × List (Filter π ρ) :=
  filters.foldl reqStep (Sum.inl p, [])

/-- The unwinding reduce over pendingResponseFilters: apply each recorded
filter's response transform, first recorded last applied. -/
def applyResponseFilters {π ρ : Type} (pending : List (Filter π ρ)) (r : ρ) : ρ :=
  pending.foldl (fun resp f => applyResp f resp) r

/-- Mirrors requestWithFilters: run the request filters; if they produced a
Response the HTTP attempt is skipped, otherwise the attempt runs on the
final options; the raw response is decoded (autoParseJson hook) and then
unwound through the pending response filters.  The boolean records whether
the HTTP attempt was performed. -/
def requestWithFilters {π ρ : Type} (filters : List (Filter π ρ)) (p : π)
    (attempt : π → ρ) (decode : ρ → ρ) : ρ × Bool :=
  match runRequestFilters filters p with
  | (Sum.inr resp, pending) => (applyResponseFilters pending (decode resp), false)
  | (Sum.inl p2, pending) => (applyResponseFilters pending (decode (attempt p2)), true)

end Pipeline

namespace Orchestrate

/-- The outcome of one attempt: a response or a typed error. -/
inductive Outcome (ε ρ : Type) where
  | ok (r : ρ)
  | err (e : ε)

/-- The terminal result of ServiceClient.request: resolution with a
response, or rejection with a ShouldRetryRejectedError, a
MaximumRetriesReachedError wrapping the last error, or (with retries = 0)
the raw error itself.  Each carries the accumulated retryErrors. -/
inductive FinalResult (ε ρ : Type) where
  | success (r : ρ) (retryErrors : List ε)
  | shouldRetryRejected (e : ε) (retryErrors : List ε)
  | maxRetriesReached (e : ε) (retryErrors : List ε)
  | rawError (e : ε) (retryErrors : List ε)

/-- The attempt loop of ServiceClient.request.  fuel is the number of
retries still available (retryOperation.retry() succeeds iff fuel > 0),
attempt the 1-based attempt ordinal, errs the retryErrors so far.  On
failure the error is recorded, shouldRetry is consulted, and when the
schedule is exhausted the rejection wraps the last error in
MaximumRetriesReachedError unless the configured retries count is 0, in
which case the raw error is rejected. -/
def loopFrom {ε ρ : Type} (retries : Nat) (attemptResult : Nat → Outcome ε ρ)
    (shouldRetry : ε → Bool) : Nat → Nat → List ε → FinalResult ε ρ
  | 0, attempt, errs =>
    match attemptResult attempt with
    | .ok r => .success r errs
    | .err e =>
      if shouldRetry e then
        if retries = 0 then .rawError e (errs ++ [e])
        else .maxRetriesReached e (errs ++ [e])
      else .shouldRetryRejected e (errs ++ [e])
  | fuel' + 1, attempt, errs =>
    match attemptResult attempt with
    | .ok r => .success r errs
    | .err e =>
      if shouldRetry e then
        loopFrom retries attemptResult shouldRetry fuel' (attempt + 1) (errs ++ [e])
      else .shouldRetryRejected e (errs ++ [e])

/-- Mirrors the promise set up by ServiceClient.request: the first attempt
runs immediately with the full retry schedule (length = retries) ahead. -/
def request {ε ρ : Type} (retries : Nat) (attemptResult : Nat → Outcome ε ρ)
    (shouldRetry : ε → Bool) : FinalResult ε ρ :=
  loopFrom retries attemptResult shouldRetry retries 1 []

end Orchestrate

namespace ClientError

/-- Mirrors the ServiceClientError constructor's message template
name: type. originalMessage, where the original message contributes
originalError.message || "" (none models a missing message property,
and an empty message is falsy). -/
def errorMessage (name ty : String) (origMsg : Option String) : String :=
  name ++ ": " ++ ty ++ ". "
    ++ (match origMsg with
        | some m => if m = "" then "" else m
        | none => "")

end ClientError

namespace Decode

/-- A response body: a string, an already-decoded object, or absent. -/
inductive BodyVal (ξ : Type) where
  | str (s : String)
  | obj (j : ξ)
  | absent
deriving DecidableEq

/-- JS truthiness of a response body: the empty string and an absent body
are falsy; a non-empty string or an object is truthy. -/
def bodyTruthy {ξ : Type} : BodyVal ξ → Bool
  | .str s => s != ""
  | .obj _ => true
  | .absent => false

/-- The slice of a ServiceClientResponse that decodeResponse inspects:
the content-type header (absent or present) and the body. -/
structure Resp (ξ : Type) where
  contentTypeHeader : Option String
  body : BodyVal ξ
deriving DecidableEq

def lowerChars (s : String) : List Char := s.toList.map Char.toLower

/-- Whether the first list is a leading segment of the second. -/
def leadsWith : List Char → List Char → Bool
  | [], _ => true
  | _ :: _, [] => false
  | a :: as, b :: bs => a == b && leadsWith as bs

/-- Whether the characters contain a plus sign immediately followed by
the letters json (the lazy group (.*?[+]) of the content-type regex). -/
def plusJson : List Char → Bool
  | [] => false
  | c :: rest => (c == '+' && leadsWith "json".toList rest) || plusJson rest

/-- After the literal application/ the regex accepts json directly or an
arbitrary run ending in a plus sign followed by json. -/
def afterApp (cs : List Char) : Bool :=
  leadsWith "json".toList cs || plusJson cs

/-- Unanchored scan for the pattern application/(.*?[+])?json. -/
def scanApp : List Char → Bool
  | [] => false
  | c :: rest =>
      (leadsWith "application/".toList (c :: rest) && afterApp (rest.drop 11))
        || scanApp rest

/-- Mirrors JSON_CONTENT_TYPE_REGEX.test: the case-insensitive regex
application/(.*?[+])?json matched anywhere in the string. -/
def jsonContentTypeTest (s : String) : Bool := scanApp (lowerChars s)

/-- Mirrors the contentType computation in decodeResponse:
response.headers["content-type"] || (response.body ? "application/json" : "");
a present but empty header string is falsy in JS and falls through to the
body-based fallback. -/
def effectiveContentType {ξ : Type} (r : Resp ξ) : String :=
  match r.contentTypeHeader with
  | some s => if s = "" then (if bodyTruthy r.body then "application/json" else "") else s
  | none => if bodyTruthy r.body then "application/json" else ""

/-- Mirrors decodeResponse: when the body is a string and the effective
content type matches the JSON regex, JSON.parse (the external parse
parameter) runs on the body; a parse failure raises BodyParseError
carrying the parse error and the original response; otherwise the
response passes through unchanged. -/
def decodeResponse {ξ : Type} (parse : String → Except String ξ) (r : Resp ξ) :
    Except (String × Resp ξ) (Resp ξ) :=
  match r.body with
  | .str s =>
      if jsonContentTypeTest (effectiveContentType r) then
        match parse s with
        | .ok j => .ok { r with body := .obj j }
        | .error e => .error (e, r)
      else .ok r
  | _ => .ok r

end Decode

end Perron

namespace Perron

namespace Breaker

theorem applySignalGuarded_disarmed (b : Bucket) (sigs : List Sig) :
    sigs.foldl applySignalGuarded (b, false) = (b, false) := by
  induction sigs with
  | nil => rfl
  | cons s rest ih => simpa [applySignalGuarded] using ih

theorem outcomeSum_bumpSig (s : Sig) (b : Bucket) :
    outcomeSum (bumpSig s b) = outcomeSum b + 1 := by
  cases s <;> simp [outcomeSum, bumpSig] <;> omega

/-- Claim C6: per command enrolment at most one of the counters successes,
failures, timeouts is incremented; the first signal to arrive (success,
failure, or the internal timeout) is the one charged, and every later
signal from the same enrolment, including a repeat of the same signal,
is ignored. -/
theorem enrolment_single_charge (b : Bucket) (sigs : List Sig) :
    outcomeSum (sigs.foldl applySignalGuarded (b, true)).1 ≤ outcomeSum b + 1
      ∧ (∀ s rest, ((s :: rest).foldl applySignalGuarded (b, true)).1 = bumpSig s b)
      ∧ (∀ s, (([s, s]).foldl applySignalGuarded (b, true)).1 = bumpSig s b) := by
  refine ⟨?_, ?_, ?_⟩
  · cases sigs with
    | nil => simp [outcomeSum]
    | cons s rest =>
        simp only [List.foldl_cons, applySignalGuarded, if_pos]
        rw [applySignalGuarded_disarmed]
        simp [outcomeSum_bumpSig]
  · intro s rest
    simp only [List.foldl_cons, applySignalGuarded, if_pos]
    rw [applySignalGuarded_disarmed]
  · intro s
    simp only [List.foldl_cons, applySignalGuarded, if_pos]
    rfl

theorem applyEv_preserves_forced (cb : CircuitBreaker) (e : Ev) :
    ((applyEv cb e).1).forced = cb.forced := by
  cases e with
  | signal s =>
      by_cases h : cb.forced = none
      · have h1 : (modifyLastBucket cb (bumpSig s)).forced = none := by
          simpa [modifyLastBucket] using h
        simp only [applyEv, h1, if_pos]
        simp only [updateState]
        split <;> split <;> simp [modifyLastBucket, h]
      · simp [applyEv, h, modifyLastBucket]
  | tick => simp [applyEv, modifyLastBucket]
  | waitTimerFire =>
      by_cases h : cb.halfOpenTimer <;> simp [applyEv, h, modifyLastBucket]
  | dispatch =>
      by_cases h : isOpen cb <;> simp [applyEv, run, h, modifyLastBucket]

theorem applyEvs_preserves_forced (cb : CircuitBreaker) (evs : List Ev) :
    (applyEvs cb evs).forced = cb.forced := by
  induction evs generalizing cb with
  | nil => rfl
  | cons e rest ih =>
      simp only [applyEvs, List.foldl_cons]
      rw [show (rest.foldl (fun c e => (applyEv c e).1) (applyEv cb e).1)
            = applyEvs (applyEv cb e).1 rest from rfl]
      rw [ih, applyEv_preserves_forced]

theorem totalCount_eq (bs : List Bucket) :
    (calculateMetrics bs).totalCount
      = (bs.map (fun b => b.successes + b.failures + b.timeouts)).sum := by
  refine congrArg List.sum (List.map_congr_left ?_)
  intro b _
  simp only [bucketErrors]
  omega

theorem errorCount_eq (bs : List Bucket) :
    (calculateMetrics bs).errorCount = (bs.map (fun b => b.failures + b.timeouts)).sum := rfl

theorem errorPercentage_max (bs : List Bucket) :
    (calculateMetrics bs).errorPercentage
      = ((calculateMetrics bs).errorCount : ℚ)
          / ((max (calculateMetrics bs).totalCount 1 : ℕ) : ℚ) * 100 := by
  have hp : (calculateMetrics bs).errorPercentage
      = (((bs.map bucketErrors).sum : ℚ)
          / (if 0 < (bs.map (fun b => bucketErrors b + b.successes)).sum
             then ((bs.map (fun b => bucketErrors b + b.successes)).sum : ℚ)
             else 1)) * 100 := rfl
  have ht : (calculateMetrics bs).totalCount
      = (bs.map (fun b => bucketErrors b + b.successes)).sum := rfl
  have he : (calculateMetrics bs).errorCount = (bs.map bucketErrors).sum := rfl
  rw [hp, ht, he]
  rcases Nat.eq_zero_or_pos ((bs.map (fun b => bucketErrors b + b.successes)).sum) with h | h
  · rw [h]
    norm_num
  · rw [if_pos h, Nat.max_eq_left h]

theorem updateState_of_closed (cb : CircuitBreaker) (h : cb.state = BState.CLOSED) :
    updateState cb =
      if ((calculateMetrics cb.buckets).totalCount : ℚ) > cb.volumeThreshold
          ∧ (calculateMetrics cb.buckets).errorPercentage > cb.errorThreshold then
        ({ cb with state := BState.OPEN, halfOpenTimer := true },
          { openFired := some (calculateMetrics cb.buckets), closeFired := none })
      else (cb, noEvents) := by
  unfold updateState
  rw [if_neg (by simp [h])]

theorem updateState_of_halfOpen (cb : CircuitBreaker) (h : cb.state = BState.HALF_OPEN) :
    updateState cb =
      if (lastBucket cb).successes = 0 ∧ 0 < (calculateMetrics cb.buckets).errorCount then
        ({ cb with state := BState.OPEN }, noEvents)
      else
        ({ cb with state := BState.CLOSED },
          { openFired := none, closeFired := some (calculateMetrics cb.buckets) }) := by
  unfold updateState
  rw [if_pos h]

theorem lastBucket_modify (cb : CircuitBreaker) (f : Bucket → Bucket)
    (h : cb.bucketIndex < cb.buckets.length) :
    lastBucket (modifyLastBucket cb f) = f (lastBucket cb) := by
  simp [lastBucket, modifyLastBucket, List.getD, List.getElem?_set_self h]

theorem applyEv_signal_unforced (cb : CircuitBreaker) (s : Sig) (h : cb.forced = none) :
    applyEv cb (Ev.signal s) = updateState (modifyLastBucket cb (bumpSig s)) := by
  have h1 : (modifyLastBucket cb (bumpSig s)).forced = none := by
    simpa [modifyLastBucket] using h
  simp [applyEv, h1]

/-- Claim C1: from CLOSED (and unforced), after an observation update the
metrics are totalCount = sum over all buckets of successes+failures+timeouts
and errorCount = sum of failures+timeouts, and the breaker transitions to
OPEN firing onCircuitOpen exactly when totalCount > volumeThreshold and
errorCount / max(totalCount, 1) * 100 > errorThreshold, both strictly; in
particular with volumeThreshold = N and totalCount = N after the update
(for instance exactly N observed failures) the breaker does not trip. -/
theorem breaker_closed_trip_iff (cb : CircuitBreaker) (s : Sig)
    (hclosed : cb.state = BState.CLOSED) (hunforced : cb.forced = none) :
    (calculateMetrics (modifyLastBucket cb (bumpSig s)).buckets).totalCount
        = ((modifyLastBucket cb (bumpSig s)).buckets.map
            (fun b => b.successes + b.failures + b.timeouts)).sum
      ∧ (calculateMetrics (modifyLastBucket cb (bumpSig s)).buckets).errorCount
        = ((modifyLastBucket cb (bumpSig s)).buckets.map
            (fun b => b.failures + b.timeouts)).sum
      ∧ (((applyEv cb (Ev.signal s)).1.state = BState.OPEN
            ∧ (applyEv cb (Ev.signal s)).2.openFired ≠ none)
          ↔ (((calculateMetrics (modifyLastBucket cb (bumpSig s)).buckets).totalCount : ℚ)
                > cb.volumeThreshold
              ∧ ((calculateMetrics (modifyLastBucket cb (bumpSig s)).buckets).errorCount : ℚ)
                  / ((max (calculateMetrics (modifyLastBucket cb (bumpSig s)).buckets).totalCount
                        1 : ℕ) : ℚ) * 100
                > cb.errorThreshold))
      ∧ (∀ N : ℕ, cb.volumeThreshold = (N : ℚ)
          → (calculateMetrics (modifyLastBucket cb (bumpSig s)).buckets).totalCount = N
          → (applyEv cb (Ev.signal s)).1.state = BState.CLOSED
              ∧ (applyEv cb (Ev.signal s)).2 = noEvents) := by
  have hstate1 : (modifyLastBucket cb (bumpSig s)).state = BState.CLOSED := hclosed
  have hv : (modifyLastBucket cb (bumpSig s)).volumeThreshold = cb.volumeThreshold := rfl
  have he : (modifyLastBucket cb (bumpSig s)).errorThreshold = cb.errorThreshold := rfl
  have happly := applyEv_signal_unforced cb s hunforced
  rw [updateState_of_closed _ hstate1, hv, he] at happly
  refine ⟨totalCount_eq _, errorCount_eq _, ?_, ?_⟩
  · rw [happly]
    rw [errorPercentage_max]
    by_cases hc :
        ((calculateMetrics (modifyLastBucket cb (bumpSig s)).buckets).totalCount : ℚ)
            > cb.volumeThreshold
          ∧ ((calculateMetrics (modifyLastBucket cb (bumpSig s)).buckets).errorCount : ℚ)
              / ((max (calculateMetrics (modifyLastBucket cb (bumpSig s)).buckets).totalCount
                    1 : ℕ) : ℚ) * 100
            > cb.errorThreshold
    · rw [if_pos hc]
      constructor
      · intro _
        exact hc
      · intro _
        exact ⟨rfl, by simp⟩
    · rw [if_neg hc]
      simp only [hstate1]
      constructor
      · rintro ⟨h1, -⟩
        exact absurd h1 (by simp)
      · intro h1
        exact absurd h1 hc
  · intro N hN htot
    rw [happly, errorPercentage_max]
    have hno : ¬ (((calculateMetrics (modifyLastBucket cb (bumpSig s)).buckets).totalCount : ℚ)
        > cb.volumeThreshold
      ∧ ((calculateMetrics (modifyLastBucket cb (bumpSig s)).buckets).errorCount : ℚ)
          / ((max (calculateMetrics (modifyLastBucket cb (bumpSig s)).buckets).totalCount
                1 : ℕ) : ℚ) * 100
        > cb.errorThreshold) := by
      rintro ⟨h1, -⟩
      rw [htot, hN] at h1
      exact lt_irrefl _ h1
    rw [if_neg hno]
    exact ⟨hstate1, rfl⟩

/-- Claim C1 witness at a concrete closed breaker: one bucket with one
failure, volumeThreshold 1, errorThreshold 50; one more failure trips. -/
theorem breaker_closed_trip_iff_witness :
    (applyEv ⟨50, 1, [⟨1, 0, 0, 0⟩], 0, BState.CLOSED, none, false⟩
        (Ev.signal Sig.failure)).1.state = BState.OPEN
      ∧ (applyEv ⟨50, 1, [⟨1, 0, 0, 0⟩], 0, BState.CLOSED, none, false⟩
          (Ev.signal Sig.failure)).2.openFired ≠ none := by
  have h := breaker_closed_trip_iff
    ⟨50, 1, [⟨1, 0, 0, 0⟩], 0, BState.CLOSED, none, false⟩ Sig.failure rfl rfl
  exact h.2.2.1.mpr
    (by norm_num [calculateMetrics, modifyLastBucket, bucketErrors, lastBucket, bumpSig])

/-- Claim C2: while OPEN, run() does not execute the command but runs the
fallback path and increments the current bucket's shortCircuits; a trip
from CLOSED arms the wait timer, and when that timer fires after
waitDurationInOpenState the breaker becomes HALF_OPEN; in HALF_OPEN run()
lets the command through, and on the command's outcome the breaker leaves
HALF_OPEN: to CLOSED firing onCircuitClose on success, back to OPEN on
failure. -/
theorem breaker_open_halfopen_cycle :
    (∀ cb : CircuitBreaker, cb.state = BState.OPEN →
        (run cb).2 = false
          ∧ (run cb).1
            = modifyLastBucket cb (fun b => { b with shortCircuits := b.shortCircuits + 1 })
          ∧ (run cb).1.state = cb.state)
      ∧ (∀ cb : CircuitBreaker, cb.state = BState.CLOSED →
          (updateState cb).1.state = BState.OPEN → (updateState cb).1.halfOpenTimer = true)
      ∧ (∀ cb : CircuitBreaker, cb.state = BState.OPEN → cb.halfOpenTimer = true →
          (applyEv cb Ev.waitTimerFire).1.state = BState.HALF_OPEN)
      ∧ (∀ cb : CircuitBreaker, cb.state = BState.HALF_OPEN → (run cb).2 = true)
      ∧ (∀ cb : CircuitBreaker, cb.state = BState.HALF_OPEN → cb.forced = none →
          cb.bucketIndex < cb.buckets.length →
          (applyEv cb (Ev.signal Sig.success)).1.state = BState.CLOSED
            ∧ (applyEv cb (Ev.signal Sig.success)).2.closeFired ≠ none)
      ∧ (∀ cb : CircuitBreaker, cb.state = BState.HALF_OPEN → cb.forced = none →
          cb.bucketIndex < cb.buckets.length → (lastBucket cb).successes = 0 →
          (applyEv cb (Ev.signal Sig.failure)).1.state = BState.OPEN)
      ∧ (∀ (cb : CircuitBreaker) (s : Sig), cb.state = BState.HALF_OPEN → cb.forced = none →
          (applyEv cb (Ev.signal s)).1.state ≠ BState.HALF_OPEN) := by
  refine ⟨?_, ?_, ?_, ?_, ?_, ?_, ?_⟩
  · intro cb h
    refine ⟨?_, ?_, ?_⟩ <;> simp [run, isOpen, h, modifyLastBucket]
  · intro cb h hOpen
    rw [updateState_of_closed cb h] at hOpen ⊢
    by_cases hc : ((calculateMetrics cb.buckets).totalCount : ℚ) > cb.volumeThreshold
        ∧ (calculateMetrics cb.buckets).errorPercentage > cb.errorThreshold
    · rw [if_pos hc]
    · rw [if_neg hc] at hOpen
      rw [h] at hOpen
      exact absurd hOpen (by simp)
  · intro cb _ htimer
    simp [applyEv, htimer, modifyLastBucket]
  · intro cb h
    simp [run, isOpen, h]
  · intro cb h hf hlen
    rw [applyEv_signal_unforced cb _ hf]
    have hst : (modifyLastBucket cb (bumpSig Sig.success)).state = BState.HALF_OPEN := h
    rw [updateState_of_halfOpen _ hst]
    rw [if_neg]
    · exact ⟨rfl, by simp⟩
    · rintro ⟨h1, -⟩
      rw [lastBucket_modify cb _ hlen] at h1
      simp [bumpSig] at h1
  · intro cb h hf hlen hsucc
    rw [applyEv_signal_unforced cb _ hf]
    have hst : (modifyLastBucket cb (bumpSig Sig.failure)).state = BState.HALF_OPEN := h
    rw [updateState_of_halfOpen _ hst]
    rw [if_pos]
    constructor
    · rw [lastBucket_modify cb _ hlen]
      simpa [bumpSig] using hsucc
    · have hmem : bumpSig Sig.failure (lastBucket cb)
          ∈ (modifyLastBucket cb (bumpSig Sig.failure)).buckets := by
        simpa [modifyLastBucket] using
          List.mem_set cb.buckets cb.bucketIndex hlen (bumpSig Sig.failure (lastBucket cb))
      have hle : bucketErrors (bumpSig Sig.failure (lastBucket cb))
          ≤ (calculateMetrics (modifyLastBucket cb (bumpSig Sig.failure)).buckets).errorCount :=
        List.le_sum_of_mem (List.mem_map_of_mem bucketErrors hmem)
      have hpos : 0 < bucketErrors (bumpSig Sig.failure (lastBucket cb)) := by
        simp [bucketErrors, bumpSig]
      exact lt_of_lt_of_le hpos hle
  · intro cb s h hf
    rw [applyEv_signal_unforced cb _ hf]
    have hst : (modifyLastBucket cb (bumpSig s)).state = BState.HALF_OPEN := h
    rw [updateState_of_halfOpen _ hst]
    split <;> simp

/-- Claim C2 witness: the conjuncts instantiated at concrete breakers in
OPEN, CLOSED and HALF_OPEN states with a single-bucket ring. -/
theorem breaker_open_halfopen_cycle_witness :
    ((run ⟨50, 5, [⟨0, 0, 0, 0⟩], 0, BState.OPEN, none, true⟩).2 = false)
      ∧ ((updateState ⟨50, 1, [⟨2, 0, 0, 0⟩], 0, BState.CLOSED, none, false⟩).1.halfOpenTimer
          = true)
      ∧ ((applyEv ⟨50, 5, [⟨0, 0, 0, 0⟩], 0, BState.OPEN, none, true⟩
          Ev.waitTimerFire).1.state = BState.HALF_OPEN)
      ∧ ((run ⟨50, 5, [⟨0, 0, 0, 0⟩], 0, BState.HALF_OPEN, none, false⟩).2 = true)
      ∧ ((applyEv ⟨50, 5, [⟨0, 0, 0, 0⟩], 0, BState.HALF_OPEN, none, false⟩
          (Ev.signal Sig.success)).1.state = BState.CLOSED)
      ∧ ((applyEv ⟨50, 5, [⟨0, 0, 0, 0⟩], 0, BState.HALF_OPEN, none, false⟩
          (Ev.signal Sig.failure)).1.state = BState.OPEN)
      ∧ ((applyEv ⟨50, 5, [⟨0, 0, 0, 0⟩], 0, BState.HALF_OPEN, none, false⟩
          (Ev.signal Sig.failure)).1.state ≠ BState.HALF_OPEN) := by
  refine ⟨(breaker_open_halfopen_cycle.1 _ rfl).1,
    breaker_open_halfopen_cycle.2.1 _ rfl ?_,
    breaker_open_halfopen_cycle.2.2.1 _ rfl rfl,
    breaker_open_halfopen_cycle.2.2.2.1 _ rfl,
    (breaker_open_halfopen_cycle.2.2.2.2.1 _ rfl rfl (by norm_num)).1,
    breaker_open_halfopen_cycle.2.2.2.2.2.1 _ rfl rfl (by norm_num) rfl,
    breaker_open_halfopen_cycle.2.2.2.2.2.2 _ Sig.failure rfl rfl⟩
  rw [updateState_of_closed _ rfl]
  rw [if_pos (by norm_num [calculateMetrics, bucketErrors, lastBucket])]

/-- Claim C8: forceOpen() followed by unforce(), with no intervening force
calls (though arbitrarily many signals, bucket rotations, timer firings and
dispatches in between), restores the logical state held immediately before
forceOpen(); the same holds for forceClose(). -/
theorem force_unforce_restores (cb : CircuitBreaker) (evs : List Ev) :
    (unforce (applyEvs (forceOpen cb) evs)).state = cb.state
      ∧ (unforce (applyEvs (forceClose cb) evs)).state = cb.state := by
  constructor
  · have h : (applyEvs (forceOpen cb) evs).forced = some cb.state := by
      rw [applyEvs_preserves_forced]; rfl
    simp [unforce, h]
  · have h : (applyEvs (forceClose cb) evs).forced = some cb.state := by
      rw [applyEvs_preserves_forced]; rfl
    simp [unforce, h]

end Breaker

end Perron

namespace Perron

namespace Retry

theorem timeouts_ok (opts : OperationOptions) (rand : Nat → ℚ)
    (h : opts.minTimeout ≤ opts.maxTimeout) :
    timeouts opts rand = Except.ok (List.insertionSort (· ≤ ·) (unsortedDelays opts rand)) := by
  simp [timeouts, not_lt.mpr h]

/-- Claim C3: with minTimeout ≤ maxTimeout the generator returns exactly
`retries` delays, the delay at attempt index i before sorting being
min(maxTimeout, round(r * minTimeout * factor ^ i)) with r = 1 when
randomize is false and r = rand i + 1 (a value in [1, 2) for a
Math.random() draw in [0, 1)) when randomize is true, and the returned
list is the ascending sort of those delays; with minTimeout > maxTimeout
construction fails with an error. -/
theorem retry_schedule_spec (opts : OperationOptions) (rand : Nat → ℚ) :
    (opts.minTimeout > opts.maxTimeout →
        timeouts opts rand = Except.error "minTimeout is greater than maxTimeout")
      ∧ (opts.minTimeout ≤ opts.maxTimeout →
          timeouts opts rand
              = Except.ok (List.insertionSort (· ≤ ·) (unsortedDelays opts rand))
            ∧ ∀ l, timeouts opts rand = Except.ok l →
                l.length = opts.retries
                  ∧ List.Sorted (· ≤ ·) l
                  ∧ l.Perm (unsortedDelays opts rand))
      ∧ (∀ i, i < opts.retries →
          (unsortedDelays opts rand).getD i 0
            = min opts.maxTimeout
                (jsRound ((if opts.randomize then rand i + 1 else 1)
                  * opts.minTimeout * opts.factor ^ i)))
      ∧ (∀ i, opts.randomize = true → 0 ≤ rand i → rand i < 1 →
          1 ≤ (if opts.randomize then rand i + 1 else 1)
            ∧ (if opts.randomize then rand i + 1 else 1) < 2) := by
  refine ⟨?_, ?_, ?_, ?_⟩
  · intro h
    simp [timeouts, h]
  · intro h
    refine ⟨timeouts_ok opts rand h, ?_⟩
    intro l hl
    rw [timeouts_ok opts rand h] at hl
    injection hl with hl
    subst hl
    refine ⟨?_, ?_, ?_⟩
    · rw [List.length_insertionSort, unsortedDelays, List.length_map, List.length_range]
    · exact List.sorted_insertionSort _ _
    · exact List.perm_insertionSort _ _
  · intro i hi
    rw [unsortedDelays, List.getD_eq_getElem?_getD, List.getElem?_map, List.getElem?_range hi]
    simp [createTimeout, min_comm]
  · intro i hr h0 h1
    rw [if_pos hr]
    constructor <;> linarith

/-- Claim C3 witness: the non-randomized configuration retries=3, factor=2,
minTimeout=10, maxTimeout=40 yields the schedule [10, 20, 40], and a
configuration with minTimeout > maxTimeout fails. -/
theorem retry_schedule_spec_witness :
    timeouts ⟨3, 2, 10, 40, false⟩ (fun _ => 0)
        = Except.ok (List.insertionSort (· ≤ ·) (unsortedDelays ⟨3, 2, 10, 40, false⟩ (fun _ => 0)))
      ∧ timeouts ⟨3, 2, 50, 40, false⟩ (fun _ => 0)
        = Except.error "minTimeout is greater than maxTimeout" := by
  exact ⟨((retry_schedule_spec ⟨3, 2, 10, 40, false⟩ (fun _ => 0)).2.1 (by norm_num)).1,
    (retry_schedule_spec ⟨3, 2, 50, 40, false⟩ (fun _ => 0)).1 (by norm_num)⟩

/-- Claim C7 counterexample: with factor = 1/2, minTimeout = 100,
maxTimeout = 200, retries = 2 and randomize = false the generated schedule
is [50, 100], whose element 50 is strictly below minTimeout; so not every
delay is ≥ minTimeout. -/
theorem schedule_below_min_counterexample :
    timeouts ⟨2, 1 / 2, 100, 200, false⟩ (fun _ => 0) = Except.ok [50, 100]
      ∧ (50 : ℚ) ∈ ([50, 100] : List ℚ)
      ∧ (50 : ℚ) < (⟨2, 1 / 2, 100, 200, false⟩ : OperationOptions).minTimeout := by
  refine ⟨?_, by simp, by norm_num⟩
  rw [timeouts_ok _ _ (by norm_num)]
  norm_num [unsortedDelays, createTimeout, jsRound, List.range_succ,
    List.insertionSort, List.orderedInsert]

/-- Claim C7 amended: every delay of a successfully generated schedule is
≤ maxTimeout; the lower clamp minTimeout ≤ delay additionally requires
factor ≥ 1 and an integral nonnegative minTimeout (it fails for factor < 1,
see the counterexample). -/
theorem schedule_clamp_amended (opts : OperationOptions) (rand : Nat → ℚ) (l : List ℚ)
    (hrand : ∀ i, 0 ≤ rand i) (hok : timeouts opts rand = Except.ok l) :
    (∀ x ∈ l, x ≤ opts.maxTimeout)
      ∧ (1 ≤ opts.factor → 0 ≤ opts.minTimeout → (∃ k : ℤ, opts.minTimeout = (k : ℚ)) →
          ∀ x ∈ l, opts.minTimeout ≤ x) := by
  by_cases h : opts.minTimeout > opts.maxTimeout
  · rw [timeouts, if_pos h] at hok
    exact absurd hok (by simp)
  rw [timeouts, if_neg h] at hok
  injection hok with hok
  have hmem : ∀ x ∈ l, ∃ i, i < opts.retries ∧ x = createTimeout i opts (rand i) := by
    intro x hx
    rw [← hok, List.mem_insertionSort, unsortedDelays, List.mem_map] at hx
    obtain ⟨i, hi, hxeq⟩ := hx
    exact ⟨i, List.mem_range.mp hi, hxeq.symm⟩
  constructor
  · intro x hx
    obtain ⟨i, -, rfl⟩ := hmem x hx
    exact min_le_right _ _
  · intro hfac hminpos ⟨k, hk⟩ x hx
    obtain ⟨i, -, rfl⟩ := hmem x hx
    have hr : 1 ≤ (if opts.randomize then rand i + 1 else 1) := by
      split
      · have := hrand i
        linarith
      · exact le_refl 1
    have hrm : opts.minTimeout ≤ (if opts.randomize then rand i + 1 else 1) * opts.minTimeout :=
      le_mul_of_one_le_left hminpos hr
    have hpow : (1 : ℚ) ≤ opts.factor ^ i := one_le_pow₀ hfac
    have hq : opts.minTimeout
        ≤ (if opts.randomize then rand i + 1 else 1) * opts.minTimeout * opts.factor ^ i := by
      have h0 : 0 ≤ (if opts.randomize then rand i + 1 else 1) * opts.minTimeout := by
        positivity
      calc opts.minTimeout
          ≤ (if opts.randomize then rand i + 1 else 1) * opts.minTimeout := hrm
        _ ≤ (if opts.randomize then rand i + 1 else 1) * opts.minTimeout * opts.factor ^ i :=
            le_mul_of_one_le_right h0 hpow
    have hfloor : opts.minTimeout
        ≤ jsRound ((if opts.randomize then rand i + 1 else 1)
            * opts.minTimeout * opts.factor ^ i) := by
      rw [hk, jsRound]
      exact_mod_cast Int.le_floor.mpr (by rw [hk] at hq; linarith)
    exact le_min hfloor (not_lt.mp h)

/-- Claim C7 amended witness: factor = 2, minTimeout = 100, maxTimeout = 400,
randomize = true with Math.random() = 1/2 gives the schedule [150, 300];
its member 150 lies within [minTimeout, maxTimeout]. -/
theorem schedule_clamp_amended_witness :
    (150 : ℚ) ≤ (⟨2, 2, 100, 400, true⟩ : OperationOptions).maxTimeout
      ∧ (⟨2, 2, 100, 400, true⟩ : OperationOptions).minTimeout ≤ (150 : ℚ) := by
  have h := schedule_clamp_amended ⟨2, 2, 100, 400, true⟩ (fun _ => 1 / 2) [150, 300]
    (fun _ => by norm_num)
    (by
      rw [timeouts_ok _ _ (by norm_num)]
      norm_num [unsortedDelays, createTimeout, jsRound, List.range_succ,
        List.insertionSort, List.orderedInsert])
  exact ⟨h.1 150 (by simp), h.2 (by norm_num) (by norm_num) ⟨100, by norm_num⟩ 150 (by simp)⟩

end Retry

end Perron

namespace Perron

namespace Pipeline

theorem foldl_reqStep_inr {π ρ : Type} (fs : List (Filter π ρ)) (r : ρ)
    (pend : List (Filter π ρ)) :
    fs.foldl reqStep (Sum.inr r, pend) = (Sum.inr r, pend) := by
  induction fs generalizing pend with
  | nil => rfl
  | cons f rest ih => simpa [reqStep] using ih pend

theorem foldl_reqStep_inl_pending {π ρ : Type} (fs : List (Filter π ρ)) (p : π)
    (acc : List (Filter π ρ)) (q : π)
    (h : (fs.foldl reqStep (Sum.inl p, acc)).1 = Sum.inl q) :
    (fs.foldl reqStep (Sum.inl p, acc)).2 = fs.reverse ++ acc := by
  induction fs generalizing p acc with
  | nil => rfl
  | cons f rest ih =>
      rw [List.foldl_cons] at h ⊢
      have hstep : reqStep (Sum.inl p, acc) f = (applyReq f p, f :: acc) := rfl
      rw [hstep] at h ⊢
      cases hreq : applyReq f p with
      | inl p2 =>
          rw [hreq] at h
          rw [ih p2 (f :: acc) h]
          simp
      | inr r =>
          rw [hreq, foldl_reqStep_inr] at h
          exact absurd h (by simp)

theorem runRequestFilters_append_sc {π ρ : Type} (fs₁ fs₂ : List (Filter π ρ))
    (f : Filter π ρ) (p : π) (q : π) (r : ρ)
    (h1 : (runRequestFilters fs₁ p).1 = Sum.inl q)
    (h2 : applyReq f q = Sum.inr r) :
    runRequestFilters (fs₁ ++ f :: fs₂) p = (Sum.inr r, f :: fs₁.reverse) := by
  have hpend : (runRequestFilters fs₁ p).2 = fs₁.reverse := by
    have := foldl_reqStep_inl_pending fs₁ p [] q h1
    simpa [runRequestFilters] using this
  have hfs₁ : runRequestFilters fs₁ p = (Sum.inl q, fs₁.reverse) := by
    rw [Prod.ext_iff]
    exact ⟨h1, hpend⟩
  rw [runRequestFilters, List.foldl_append]
  rw [show fs₁.foldl reqStep (Sum.inl p, []) = runRequestFilters fs₁ p from rfl, hfs₁]
  rw [List.foldl_cons]
  rw [show reqStep (Sum.inl q, fs₁.reverse) f = (applyReq f q, f :: fs₁.reverse) from rfl, h2]
  exact foldl_reqStep_inr fs₂ r (f :: fs₁.reverse)

/-- Claim C4: if the request transforms of the filters fs₁ all pass the
options through (reaching final options q) and the next filter f
short-circuits with a Response r, then the HTTP attempt is skipped, the
later filters fs₂ neither run their request side nor participate in
unwinding (the result equals the pipeline with fs₂ removed), and the
response transforms applied are exactly those of the prefix fs₁ ++ [f]
that ran its request side, applied in reverse order: f's response
transform first, then fs₁'s from last to first. -/
theorem filter_short_circuit_prefix {π ρ : Type} (fs₁ fs₂ : List (Filter π ρ))
    (f : Filter π ρ) (p : π) (q : π) (r : ρ) (attempt : π → ρ) (decode : ρ → ρ)
    (h1 : (runRequestFilters fs₁ p).1 = Sum.inl q)
    (h2 : applyReq f q = Sum.inr r) :
    requestWithFilters (fs₁ ++ f :: fs₂) p attempt decode
        = (applyResponseFilters ((fs₁ ++ [f]).reverse) (decode r), false)
      ∧ requestWithFilters (fs₁ ++ f :: fs₂) p attempt decode
        = requestWithFilters (fs₁ ++ [f]) p attempt decode
      ∧ applyResponseFilters ((fs₁ ++ [f]).reverse) (decode r)
        = (fs₁ ++ [f]).foldr (fun g resp => applyResp g resp) (decode r) := by
  have hrev : (fs₁ ++ [f]).reverse = f :: fs₁.reverse := by simp
  have hrun := runRequestFilters_append_sc fs₁ fs₂ f p q r h1 h2
  have hrun1 := runRequestFilters_append_sc fs₁ [] f p q r h1 h2
  refine ⟨?_, ?_, ?_⟩
  · rw [requestWithFilters, hrun, hrev]
  · rw [requestWithFilters, hrun, requestWithFilters, hrun1]
  · rw [hrev, show applyResponseFilters (f :: fs₁.reverse) (decode r)
        = ((fs₁ ++ [f]).reverse).foldl (fun resp g => applyResp g resp) (decode r) by
          rw [hrev]; rfl]
    rw [List.foldl_reverse]

/-- Claim C4 witness: two filters where the second short-circuits with the
response 7; a third filter after it never participates.  The response
transforms of the short-circuiting filter (+1) and of the first filter
(*2) run in reverse order on the synthetic response: (7+1)*2 = 16, and the
HTTP attempt (fun _ => 999) never runs. -/
theorem filter_short_circuit_prefix_witness :
    requestWithFilters
        (([(⟨some (fun n => Sum.inl (n + 1)), some (fun r => r * 2)⟩ : Filter Nat Nat)]
            ++ (⟨some (fun _ => Sum.inr 7), some (fun r => r + 1)⟩ : Filter Nat Nat)
            :: [(⟨some (fun n => Sum.inl (n + 5)), some (fun r => r + 100)⟩ : Filter Nat Nat)]))
        0 (fun _ => 999) id
      = (16, false) := by
  have h := filter_short_circuit_prefix
    [(⟨some (fun n => Sum.inl (n + 1)), some (fun r => r * 2)⟩ : Filter Nat Nat)]
    [(⟨some (fun n => Sum.inl (n + 5)), some (fun r => r + 100)⟩ : Filter Nat Nat)]
    (⟨some (fun _ => Sum.inr 7), some (fun r => r + 1)⟩ : Filter Nat Nat)
    0 1 7 (fun _ => 999) id rfl rfl
  rw [h.1]
  rfl

end Pipeline

namespace Orchestrate

theorem loopFrom_all_fail {ε ρ : Type} (retries : Nat) (attemptResult : Nat → Outcome ε ρ)
    (e : Nat → ε) (shouldRetry : ε → Bool)
    (hfail : ∀ a, attemptResult a = .err (e a)) (hretry : ∀ x, shouldRetry x = true)
    (fuel attempt : Nat) (errs : List ε) :
    loopFrom retries attemptResult shouldRetry fuel attempt errs
      = if retries = 0 then
          FinalResult.rawError (e (attempt + fuel))
            (errs ++ (List.range (fuel + 1)).map (fun k => e (attempt + k)))
        else
          FinalResult.maxRetriesReached (e (attempt + fuel))
            (errs ++ (List.range (fuel + 1)).map (fun k => e (attempt + k))) := by
  induction fuel generalizing attempt errs with
  | zero =>
      simp only [loopFrom, hfail attempt, hretry, if_true]
      simp [List.range_succ]
  | succ fuel' ih =>
      simp only [loopFrom, hfail attempt, hretry, if_true]
      rw [ih (attempt + 1) (errs ++ [e attempt])]
      have harith : attempt + 1 + fuel' = attempt + (fuel' + 1) := by omega
      have hlist : (errs ++ [e attempt])
            ++ (List.range (fuel' + 1)).map (fun k => e (attempt + 1 + k))
          = errs ++ (List.range (fuel' + 1 + 1)).map (fun k => e (attempt + k)) := by
        rw [List.append_assoc, List.singleton_append]
        congr 1
        conv_rhs => rw [List.range_succ_eq_map, List.map_cons, List.map_map]
        congr 1
        refine List.map_congr_left ?_
        intro k _
        simp only [Function.comp_apply]
        congr 1
        omega
      rw [harith, hlist]

/-- Claim C5: when every attempt fails (with shouldRetry approving retries)
and the schedule is exhausted, the call rejects with
MaximumRetriesReachedError wrapping the latest typed error (that of attempt
retries+1) when retries > 0, and with retries = 0 it rejects with the raw
typed error of the single attempt, unwrapped. -/
theorem retries_exhausted_rejection {ε ρ : Type} (retries : Nat)
    (attemptResult : Nat → Outcome ε ρ) (e : Nat → ε) (shouldRetry : ε → Bool)
    (hfail : ∀ a, attemptResult a = .err (e a))
    (hretry : ∀ x, shouldRetry x = true) :
    (retries = 0 →
        request retries attemptResult shouldRetry = FinalResult.rawError (e 1) [e 1])
      ∧ (0 < retries →
        request retries attemptResult shouldRetry
          = FinalResult.maxRetriesReached (e (retries + 1))
              ((List.range (retries + 1)).map (fun k => e (k + 1)))) := by
  have h := loopFrom_all_fail retries attemptResult e shouldRetry hfail hretry retries 1 []
  constructor
  · intro h0
    subst h0
    rw [request, h]
    simp [List.range_succ]
  · intro hpos
    rw [request, h, if_neg (by omega)]
    have h1 : 1 + retries = retries + 1 := by omega
    rw [h1]
    congr 1
    simp only [List.nil_append]
    refine List.map_congr_left ?_
    intro k _
    congr 1
    omega

/-- Claim C5 witness: with the attempt at ordinal a always failing with
typed error a, retries = 0 rejects with the raw error 1, and retries = 2
rejects with MaximumRetriesReachedError wrapping the latest error 3 and
retryErrors [1, 2, 3]. -/
theorem retries_exhausted_rejection_witness :
    request 0 (fun a => Outcome.err a) (fun _ => true)
        = (FinalResult.rawError 1 [1] : FinalResult Nat Nat)
      ∧ request 2 (fun a => Outcome.err a) (fun _ => true)
        = (FinalResult.maxRetriesReached 3 [1, 2, 3] : FinalResult Nat Nat) := by
  constructor
  · exact (retries_exhausted_rejection 0 (fun a => (Outcome.err a : Outcome Nat Nat))
      (fun a => a) (fun _ => true) (fun _ => rfl) (fun _ => rfl)).1 rfl
  · have h := (retries_exhausted_rejection 2 (fun a => (Outcome.err a : Outcome Nat Nat))
      (fun a => a) (fun _ => true) (fun _ => rfl) (fun _ => rfl)).2 (by omega)
    rw [h]
    rfl

end Orchestrate

end Perron

namespace Perron

namespace ClientError

/-- Claim C9 counterexample: with no original message the surfaced message
keeps a trailing space after the period; it is not trimmed.  At name
ServiceClient and type HTTP Request failed the message is
"ServiceClient: HTTP Request failed. " and differs from the trimmed form. -/
theorem error_message_not_trimmed :
    errorMessage "ServiceClient" "HTTP Request failed" none
        = "ServiceClient: HTTP Request failed. "
      ∧ errorMessage "ServiceClient" "HTTP Request failed" none
        ≠ "ServiceClient: HTTP Request failed." := by
  constructor
  · rfl
  · decide

/-- Claim C9 amended: every surfaced message has the form
name: type. originalMessage; when the original error has no message the
message ends with the period and a trailing space (the space between the
period and the empty message is kept, not trimmed). -/
theorem error_message_format (name ty : String) :
    (∀ m : String, m ≠ "" →
        errorMessage name ty (some m) = name ++ ": " ++ ty ++ ". " ++ m)
      ∧ errorMessage name ty none = name ++ ": " ++ ty ++ ". " := by
  constructor
  · intro m hm
    rw [errorMessage]
    simp [hm]
  · rw [errorMessage]
    simp

/-- Claim C9 amended witness: the format at concrete inputs, matching the
repository's own test expectation TestClient: HTTP Request failed. foobar,
and the untrimmed no-message form. -/
theorem error_message_format_witness :
    errorMessage "TestClient" "HTTP Request failed" (some "foobar")
        = "TestClient: HTTP Request failed. foobar"
      ∧ errorMessage "TestClient" "HTTP Request failed" none
        = "TestClient: HTTP Request failed. " := by
  constructor
  · exact ((error_message_format "TestClient" "HTTP Request failed").1 "foobar"
      (by decide)).trans (by rfl)
  · exact ((error_message_format "TestClient" "HTTP Request failed").2).trans (by rfl)

end ClientError

namespace Decode

/-- Claim C10: with autoParseJson on, a response with a non-empty string
body and no content-type header at all is treated as application/json and
parsed: a parse failure raises BodyParseError carrying the original
response, and a parse success replaces the body with the parsed object;
parsing is suppressed only when a (non-empty) content-type is explicitly
present and does not match the JSON regex. -/
theorem missing_content_type_parses_json {ξ : Type} (parse : String → Except String ξ)
    (r : Resp ξ) (s : String)
    (hct : r.contentTypeHeader = none) (hbody : r.body = BodyVal.str s) (hs : s ≠ "") :
    effectiveContentType r = "application/json"
      ∧ (∀ e, parse s = .error e → decodeResponse parse r = .error (e, r))
      ∧ (∀ j, parse s = .ok j → decodeResponse parse r = .ok { r with body := BodyVal.obj j })
      ∧ (∀ (r2 : Resp ξ) (s2 c : String), r2.contentTypeHeader = some c → c ≠ "" →
          jsonContentTypeTest c = false → r2.body = BodyVal.str s2 →
          decodeResponse parse r2 = .ok r2) := by
  have hech : effectiveContentType r = "application/json" := by
    simp [effectiveContentType, hct, hbody, bodyTruthy, hs]
  have hjson : jsonContentTypeTest (effectiveContentType r) = true := by
    rw [hech]
    decide
  refine ⟨hech, ?_, ?_, ?_⟩
  · intro e he
    simp only [decodeResponse, hbody, hjson, if_true, he]
  · intro j hj
    simp only [decodeResponse, hbody, hjson, if_true, hj]
  · intro r2 s2 c hc hcne hcfalse hb2
    have hec2 : effectiveContentType r2 = c := by
      simp [effectiveContentType, hc, hcne]
    simp [decodeResponse, hb2, hec2, hcfalse]

/-- Claim C10 witness: the body "/no" with no content-type header and a
failing JSON.parse yields BodyParseError carrying the original response. -/
theorem missing_content_type_parses_json_witness :
    decodeResponse (fun _ => (Except.error "bad" : Except String Nat))
        (⟨none, BodyVal.str "/no"⟩ : Resp Nat)
      = Except.error ("bad", (⟨none, BodyVal.str "/no"⟩ : Resp Nat)) := by
  exact (missing_content_type_parses_json (fun _ => Except.error "bad")
    ⟨none, BodyVal.str "/no"⟩ "/no" rfl rfl (by decide)).2.1 "bad" rfl

end Decode

end Perron
